import Mathlib

/-!
Verification of the PLIVE TV vertical-feed player and chat overlay
(`src/App.tsx`: `ReelItem`, `App`, and `ChatPanel`).

The development shallowly embeds the stateful React code:
* JS floating-point values relevant to the playback math are modelled by
  `JSNum` (`nan`, signed infinities, and finite rationals), with the JS
  semantics of `/`, `*` and truthiness (`x || 0`);
* the media element commanded by `ReelItem` is modelled by `MediaEl`
  together with an explicit command list (`MediaCmd`), so ordering facts
  such as "reset time before play" are visible in the model;
* the feed (`App`'s IntersectionObserver effect plus each `ReelItem`'s
  `isActive` effect) is a step function `observeStep` over `FeedState`;
* the chat overlay (`ChatPanel`) is a step function `chatStep` over a
  `World` that tracks the mounted component instance, the per-session
  chat object identity (`chatInstance`), and the in-flight backend calls.
-/

/-- A JS number as used by the playback math: NaN, ±Infinity, or a finite
value (modelled as a rational; `-0` is identified with `0`). -/
inductive JSNum where
  | nan : JSNum
  | posInf : JSNum
  | negInf : JSNum
  | fin : ℚ → JSNum
deriving DecidableEq

/-- JS division, restricted to the cases arising here (divisor `0` is the
positive zero produced by media APIs). -/
def jsDiv : JSNum → JSNum → JSNum
  | JSNum.nan, _ => JSNum.nan
  | _, JSNum.nan => JSNum.nan
  | JSNum.posInf, JSNum.posInf => JSNum.nan
  | JSNum.posInf, JSNum.negInf => JSNum.nan
  | JSNum.negInf, JSNum.posInf => JSNum.nan
  | JSNum.negInf, JSNum.negInf => JSNum.nan
  | JSNum.posInf, JSNum.fin b => if 0 ≤ b then JSNum.posInf else JSNum.negInf
  | JSNum.negInf, JSNum.fin b => if 0 ≤ b then JSNum.negInf else JSNum.posInf
  | JSNum.fin _, JSNum.posInf => JSNum.fin 0
  | JSNum.fin _, JSNum.negInf => JSNum.fin 0
  | JSNum.fin a, JSNum.fin b =>
      if b = 0 then
        (if a = 0 then JSNum.nan else if 0 < a then JSNum.posInf else JSNum.negInf)
      else JSNum.fin (a / b)

/-- JS multiplication. -/
def jsMul : JSNum → JSNum → JSNum
  | JSNum.nan, _ => JSNum.nan
  | _, JSNum.nan => JSNum.nan
  | JSNum.posInf, JSNum.posInf => JSNum.posInf
  | JSNum.posInf, JSNum.negInf => JSNum.negInf
  | JSNum.negInf, JSNum.posInf => JSNum.negInf
  | JSNum.negInf, JSNum.negInf => JSNum.posInf
  | JSNum.posInf, JSNum.fin b =>
      if b = 0 then JSNum.nan else if 0 < b then JSNum.posInf else JSNum.negInf
  | JSNum.negInf, JSNum.fin b =>
      if b = 0 then JSNum.nan else if 0 < b then JSNum.negInf else JSNum.posInf
  | JSNum.fin a, JSNum.posInf =>
      if a = 0 then JSNum.nan else if 0 < a then JSNum.posInf else JSNum.negInf
  | JSNum.fin a, JSNum.negInf =>
      if a = 0 then JSNum.nan else if 0 < a then JSNum.negInf else JSNum.posInf
  | JSNum.fin a, JSNum.fin b => JSNum.fin (a * b)

/-- JS truthiness of a number: `0` and `NaN` are falsy, everything else truthy. -/
def truthy : JSNum → Bool
  | JSNum.nan => false
  | JSNum.fin q => decide (q ≠ 0)
  | _ => true

/-- `ReelItem.handleTimeUpdate`'s progress computation:
`const p = (cur / dur) * 100; setProgress(p || 0)`. -/
def progressOf (cur dur : JSNum) : JSNum :=
  let p := jsMul (jsDiv cur dur) (JSNum.fin 100)
  if truthy p then p else JSNum.fin 0

/-- The per-item UI playback state touched by `handleTimeUpdate`. -/
structure PlaybackUI where
  currentTime : JSNum
  duration : JSNum
  progress : JSNum
deriving DecidableEq

/-- `ReelItem.handleTimeUpdate`: stores the media element's current time and
duration and recomputes the progress percentage. -/
def handleTimeUpdate (cur dur : JSNum) (u : PlaybackUI) : PlaybackUI :=
  { u with currentTime := cur, duration := dur, progress := progressOf cur dur }

/-- The value `v` is a finite number lying in the interval `[0, 100]`. -/
def inRange0100 : JSNum → Prop
  | JSNum.fin q => 0 ≤ q ∧ q ≤ 100
  | _ => False

/-- `ReelItem.handleSeek`'s target: `(newProgress / 100) * duration`. -/
def seekTargetTime (newProgress dur : JSNum) : JSNum :=
  jsMul (jsDiv newProgress (JSNum.fin 100)) dur

/-- The media element's `currentTime` setter: a WebIDL (restricted) double,
so a non-finite value is rejected with a `TypeError`. -/
def assignCurrentTime : JSNum → Except Unit ℚ
  | JSNum.fin q => Except.ok q
  | _ => Except.error ()

/-- `ReelItem.handleSeek`: computes the target time, assigns it to the media
element's `currentTime`, and only then optimistically stores the new progress
value. Returns the time actually commanded together with the stored progress,
or the error from the `currentTime` setter. -/
def handleSeek (newProgress dur : JSNum) : Except Unit (ℚ × JSNum) :=
  match assignCurrentTime (seekTargetTime newProgress dur) with
  | Except.ok t => Except.ok (t, newProgress)
  | Except.error e => Except.error e

theorem progressOf_ne_nan (cur dur : JSNum) : progressOf cur dur ≠ JSNum.nan := by
  unfold progressOf
  set p := jsMul (jsDiv cur dur) (JSNum.fin 100) with hp
  by_cases h : truthy p = true
  · simp only [h, if_true]
    intro hcontr
    rw [hcontr] at h
    simp [truthy] at h
  · simp [h]

theorem progressOf_fin_bounds (c d : ℚ) (hc : 0 ≤ c) (hcd : c ≤ d) :
    ∃ q : ℚ, progressOf (JSNum.fin c) (JSNum.fin d) = JSNum.fin q ∧ 0 ≤ q ∧ q ≤ 100 := by
  by_cases hd : d = 0
  · subst hd
    have hc0 : c = 0 := le_antisymm hcd hc
    subst hc0
    exact ⟨0, by norm_num [progressOf, jsDiv, jsMul, truthy], le_refl 0, by norm_num⟩
  · have hdpos : 0 < d := lt_of_le_of_ne (hc.trans hcd) (Ne.symm hd)
    have hdiv : jsDiv (JSNum.fin c) (JSNum.fin d) = JSNum.fin (c / d) := by
      simp [jsDiv, hd]
    have hq0 : 0 ≤ c / d * 100 := by positivity
    have hq100 : c / d * 100 ≤ 100 := by
      have h1 : c / d ≤ 1 := (div_le_one hdpos).mpr hcd
      calc c / d * 100 ≤ 1 * 100 := by
            exact mul_le_mul_of_nonneg_right h1 (by norm_num)
        _ = 100 := by norm_num
    refine ⟨if c / d * 100 = 0 then 0 else c / d * 100, ?_, ?_, ?_⟩
    · by_cases hz : c / d * 100 = 0
      · simp [progressOf, hdiv, jsMul, truthy, hz]
      · simp [progressOf, hdiv, jsMul, truthy, hz]
    · split <;> simp [hq0]
    · split <;> simp [hq100]

/-- C4 (amended): for every time-update event, the stored `progressPercent` is
never NaN; and whenever `0 ≤ currentTime ≤ duration` — or the duration is
still unknown (NaN) or infinite — it is a finite value in `[0, 100]`. -/
theorem c4_amended (cur dur : JSNum) (u : PlaybackUI) :
    (handleTimeUpdate cur dur u).progress ≠ JSNum.nan ∧
    (∀ c : ℚ, cur = JSNum.fin c → 0 ≤ c →
      (dur = JSNum.nan ∨ dur = JSNum.posInf ∨ (∃ d : ℚ, dur = JSNum.fin d ∧ c ≤ d)) →
      ∃ q : ℚ, (handleTimeUpdate cur dur u).progress = JSNum.fin q ∧ 0 ≤ q ∧ q ≤ 100) := by
  constructor
  · simpa [handleTimeUpdate] using progressOf_ne_nan cur dur
  · rintro c rfl hc (rfl | rfl | ⟨d, rfl, hcd⟩)
    · exact ⟨0, by simp [handleTimeUpdate, progressOf, jsDiv, jsMul, truthy], le_refl 0,
        by norm_num⟩
    · exact ⟨0, by simp [handleTimeUpdate, progressOf, jsDiv, jsMul, truthy], le_refl 0,
        by norm_num⟩
    · simpa [handleTimeUpdate] using progressOf_fin_bounds c d hc hcd

/-- C4 (witness): a time-update with `currentTime = 30` and `duration = 60`
yields a non-NaN progress value inside `[0, 100]`. -/
theorem c4_amended_witness :
    (handleTimeUpdate (JSNum.fin 30) (JSNum.fin 60)
        ⟨JSNum.fin 0, JSNum.fin 0, JSNum.fin 0⟩).progress ≠ JSNum.nan ∧
    ∃ q : ℚ,
      (handleTimeUpdate (JSNum.fin 30) (JSNum.fin 60)
          ⟨JSNum.fin 0, JSNum.fin 0, JSNum.fin 0⟩).progress = JSNum.fin q ∧
      0 ≤ q ∧ q ≤ 100 :=
  ⟨(c4_amended (JSNum.fin 30) (JSNum.fin 60) ⟨JSNum.fin 0, JSNum.fin 0, JSNum.fin 0⟩).1,
   (c4_amended (JSNum.fin 30) (JSNum.fin 60) ⟨JSNum.fin 0, JSNum.fin 0, JSNum.fin 0⟩).2
     30 rfl (by norm_num) (Or.inr (Or.inr ⟨60, rfl, by norm_num⟩))⟩

/-- C4 (counterexample): a time-update whose `currentTime` (10) exceeds its
`duration` (5) stores `progressPercent = 200`, outside `[0, 100]`, so the
claim's unrestricted range statement is false on the code. -/
theorem c4_counterexample :
    (handleTimeUpdate (JSNum.fin 10) (JSNum.fin 5)
        ⟨JSNum.fin 0, JSNum.fin 0, JSNum.fin 0⟩).progress = JSNum.fin 200 ∧
    ¬ inRange0100 ((handleTimeUpdate (JSNum.fin 10) (JSNum.fin 5)
        ⟨JSNum.fin 0, JSNum.fin 0, JSNum.fin 0⟩).progress) := by
  have h : (handleTimeUpdate (JSNum.fin 10) (JSNum.fin 5)
      ⟨JSNum.fin 0, JSNum.fin 0, JSNum.fin 0⟩).progress = JSNum.fin 200 := by
    norm_num [handleTimeUpdate, progressOf, jsDiv, jsMul, truthy]
  exact ⟨h, by rw [h]; norm_num [inRange0100]⟩

/-- C9: a seek issued while the media duration is still NaN (metadata not yet
loaded) computes a NaN target time and hands it to the `currentTime` setter,
which rejects it — the seek is not treated as a no-op / zero fallback. With a
known duration of 120, `seek(50)` commands time 60 and stores progress 50. -/
theorem c9_seek_nan_crash :
    seekTargetTime (JSNum.fin 50) JSNum.nan = JSNum.nan ∧
    handleSeek (JSNum.fin 50) JSNum.nan = Except.error () ∧
    handleSeek (JSNum.fin 50) (JSNum.fin 120) = Except.ok (60, JSNum.fin 50) := by
  refine ⟨rfl, rfl, ?_⟩
  norm_num [handleSeek, seekTargetTime, jsDiv, jsMul, assignCurrentTime]

/-- The state of one feed item's media element: whether it is paused and its
current playback position (seconds). A freshly mounted `<video>` (no
`autoplay` attribute) is paused at time 0. -/
structure MediaEl where
  paused : Bool
  time : ℚ
deriving DecidableEq

/-- A freshly mounted media element. -/
def pristine : MediaEl := { paused := true, time := 0 }

/-- A command issued by `ReelItem` to its media element. -/
inductive MediaCmd where
  | setTime : ℚ → MediaCmd
  | playAttempt : MediaCmd
  | pauseCmd : MediaCmd
deriving DecidableEq

/-- `video.play()`: resolves (element starts playing) when the environment
allows it, rejects with `NotAllowedError` when autoplay is denied. -/
def playPromise (allowed : Bool) (m : MediaEl) : Except Unit MediaEl :=
  if allowed then Except.ok { m with paused := false } else Except.error ()

/-- Run one command against the element. A rejected `play()` is consumed by
the `.catch(() => {})` handler, leaving the element unchanged (paused). -/
def runCmd (allowed : Bool) (m : MediaEl) : MediaCmd → MediaEl
  | MediaCmd.setTime t => { m with time := t }
  | MediaCmd.playAttempt =>
      match playPromise allowed m with
      | Except.ok m2 => m2
      | Except.error _ => m
  | MediaCmd.pauseCmd => { m with paused := true }

def runCmds (allowed : Bool) (cmds : List MediaCmd) (m : MediaEl) : MediaEl :=
  cmds.foldl (runCmd allowed) m

/-- The command list of `ReelItem`'s `isActive` effect: on becoming active,
`currentTime = 0` then `play().catch(() => {})`; on losing active status,
`pause()`. -/
def reelEffectCmds (isActive : Bool) : List MediaCmd :=
  if isActive then [MediaCmd.setTime 0, MediaCmd.playAttempt] else [MediaCmd.pauseCmd]

/-- Run the `isActive` effect of `ReelItem` against an element. -/
def runReelEffect (isActive allowed : Bool) (m : MediaEl) : MediaEl :=
  runCmds allowed (reelEffectCmds isActive) m

/-- `ReelItem.togglePlay`: if the element is paused, play it and flash the
`play` indicator; otherwise pause it and flash the `pause` indicator
(a click is a user gesture, so this `play()` is allowed). -/
def togglePlayEl (m : MediaEl) : MediaEl × Bool :=
  if m.paused then ({ m with paused := false }, true) else ({ m with paused := true }, false)

/-- The feed: `n` mounted reel items (indexed `0 ≤ i < n`), the current
`activeIdx`, and each item's media element. -/
structure FeedState where
  n : ℕ
  activeIdx : ℕ
  items : ℕ → MediaEl

/-- The commands item `i` receives when the active index moves from `oldA` to
`k`: each `ReelItem`'s effect has dependency `[isActive]`, so it re-runs
exactly when `isActive = (activeIdx == index)` changed. -/
def itemCmds (oldA k i : ℕ) : List MediaCmd :=
  if ((oldA == i) == (k == i)) then [] else reelEffectCmds (k == i)

/-- One viewport-observation batch: the `IntersectionObserver` callback sets
`activeIdx` to the (last) index reported intersecting at or above the 0.6
threshold; React then re-runs the `isActive` effect of every item whose
active status changed. `ob.2` records whether the environment allows
autoplay for this transition. -/
def observeStep (s : FeedState) (ob : ℕ × Bool) : FeedState :=
  { n := s.n, activeIdx := ob.1,
    items := fun i => runCmds ob.2 (itemCmds s.activeIdx ob.1 i) (s.items i) }

/-- Mounting the feed (`view = 'feed'`): `activeIdx` starts at 0 and every
item's effect runs once with its initial `isActive` value. -/
def initFeed (numEps : ℕ) (allowed : Bool) : FeedState :=
  { n := numEps, activeIdx := 0,
    items := fun i => runReelEffect (0 == i) allowed pristine }

/-- Run the feed from mount through a sequence of observation batches. -/
def runFeed (numEps : ℕ) (allowed : Bool) (obs : List (ℕ × Bool)) : FeedState :=
  obs.foldl observeStep (initFeed numEps allowed)

/-- At most one mounted item is in the playing (non-paused) sub-state. -/
def atMostOnePlaying (s : FeedState) : Prop :=
  ∀ i j, i < s.n → j < s.n →
    (s.items i).paused = false → (s.items j).paused = false → i = j

/-- Every mounted item other than the active one is paused. -/
def feedInv (s : FeedState) : Prop :=
  ∀ i, i < s.n → i ≠ s.activeIdx → (s.items i).paused = true

theorem runReelEffect_inactive (allowed : Bool) (m : MediaEl) :
    runReelEffect false allowed m = { m with paused := true } := by
  simp [runReelEffect, reelEffectCmds, runCmds, runCmd]

theorem initFeed_inv (numEps : ℕ) (allowed : Bool) : feedInv (initFeed numEps allowed) := by
  intro i _ hne
  have hbeq : (0 == i) = false := by
    simp [initFeed] at hne
    simp [Ne.symm hne]
  simp [initFeed, hbeq, runReelEffect_inactive]

theorem observeStep_inv (s : FeedState) (ob : ℕ × Bool) (h : feedInv s) :
    feedInv (observeStep s ob) := by
  intro i hi hne
  have hki : (ob.1 == i) = false := by
    simp only [observeStep] at hne
    simp [Ne.symm hne]
  simp only [observeStep]
  by_cases hcase : ((s.activeIdx == i) == (ob.1 == i)) = true
  · have hai : (s.activeIdx == i) = false := by
      rw [hki] at hcase
      simpa using hcase
    have hia : i ≠ s.activeIdx := by
      intro hcontr
      subst hcontr
      simp at hai
    have : itemCmds s.activeIdx ob.1 i = [] := by simp [itemCmds, hcase]
    simp only [observeStep] at hi
    simp [this, runCmds, h i hi hia]
  · have hai : (s.activeIdx == i) = true := by
      rw [hki] at hcase
      simpa using hcase
    have hcmds : itemCmds s.activeIdx ob.1 i = [MediaCmd.pauseCmd] := by
      simp [itemCmds, hai, hki, reelEffectCmds]
    simp [hcmds, runCmds, runCmd]

theorem foldl_observeStep_inv (s : FeedState) (h : feedInv s) (obs : List (ℕ × Bool)) :
    feedInv (obs.foldl observeStep s) := by
  induction obs generalizing s with
  | nil => simpa using h
  | cons ob rest ih =>
      rw [List.foldl_cons]
      exact ih _ (observeStep_inv s ob h)

theorem runFeed_inv (numEps : ℕ) (allowed : Bool) (obs : List (ℕ × Bool)) :
    feedInv (runFeed numEps allowed obs) :=
  foldl_observeStep_inv _ (initFeed_inv numEps allowed) obs

/-- C1: over every sequence of viewport observation batches delivered to the
feed, at most one feed item is in the playing sub-state; an item other than
the newly active index is never commanded to play, and the item losing active
status receives exactly a pause command. -/
theorem c1_single_active_player (numEps : ℕ) (allowed : Bool) (obs : List (ℕ × Bool)) :
    atMostOnePlaying (runFeed numEps allowed obs) ∧
    (∀ oldA k i : ℕ, i ≠ k → MediaCmd.playAttempt ∉ itemCmds oldA k i) ∧
    (∀ oldA k : ℕ, k ≠ oldA → itemCmds oldA k oldA = [MediaCmd.pauseCmd]) := by
  refine ⟨?_, ?_, ?_⟩
  · intro i j hi hj hpi hpj
    have hinv := runFeed_inv numEps allowed obs
    by_cases hia : i = (runFeed numEps allowed obs).activeIdx
    · by_cases hja : j = (runFeed numEps allowed obs).activeIdx
      · rw [hia, hja]
      · exact absurd (hinv j hj hja) (by simp [hpj])
    · exact absurd (hinv i hi hia) (by simp [hpi])
  · intro oldA k i hik
    have hki : (k == i) = false := by simp [Ne.symm hik]
    by_cases hcase : ((oldA == i) == (k == i)) = true
    · simp [itemCmds, hcase]
    · have hai : (oldA == i) = true := by
        rw [hki] at hcase
        simpa using hcase
      simp [itemCmds, hai, hki, reelEffectCmds]
  · intro oldA k hk
    have hka : (k == oldA) = false := by simp [hk]
    simp [itemCmds, hka, reelEffectCmds]

/-- C1 (witness): after mounting a four-episode feed and scrolling to item 1
then item 2, at most one item is playing; item 0 is not commanded to play
when item 1 activates, and the item losing active status is just paused. -/
theorem c1_single_active_player_witness :
    atMostOnePlaying (runFeed 4 true [(1, true), (2, true)]) ∧
    MediaCmd.playAttempt ∉ itemCmds 0 1 0 ∧
    itemCmds 0 1 0 = [MediaCmd.pauseCmd] :=
  ⟨(c1_single_active_player 4 true [(1, true), (2, true)]).1,
   (c1_single_active_player 4 true [(1, true), (2, true)]).2.1 0 1 0 (by decide),
   (c1_single_active_player 4 true [(1, true), (2, true)]).2.2 0 1 (by decide)⟩

/-- C7: in the activation effect's command list, every play command is
preceded by a reset of the playback time to 0; consequently, after the
activation effect runs, the element's time is 0 (whether or not autoplay
was allowed). -/
theorem c7_reset_before_play :
    (∀ l₁ l₂ : List MediaCmd,
        reelEffectCmds true = l₁ ++ MediaCmd.playAttempt :: l₂ →
        MediaCmd.setTime 0 ∈ l₁) ∧
    (∀ (allowed : Bool) (m : MediaEl), (runReelEffect true allowed m).time = 0) := by
  constructor
  · intro l₁ l₂ h
    cases l₁ with
    | nil => simp [reelEffectCmds] at h
    | cons x xs =>
        have hx : x = MediaCmd.setTime 0 := by
          have := congrArg (fun l => l.head?) h
          simpa [reelEffectCmds] using this.symm
        rw [hx]
        exact List.mem_cons_self _ _
  · intro allowed m
    cases allowed <;>
      simp [runReelEffect, reelEffectCmds, runCmds, runCmd, playPromise]

/-- C7 (witness): the command list of the activation effect decomposes with
the play command preceded by a time reset, and activating a fresh element
leaves its time at 0. -/
theorem c7_reset_before_play_witness :
    MediaCmd.setTime 0 ∈ [MediaCmd.setTime 0] ∧ (runReelEffect true true pristine).time = 0 :=
  ⟨c7_reset_before_play.1 [MediaCmd.setTime 0] [] rfl,
   c7_reset_before_play.2 true pristine⟩

/-- C8: when the environment denies autoplay, `play()` rejects, the rejection
is consumed by the `.catch(() => {})` handler (the state transition is total
and leaves the element unchanged), the activated item ends up paused at time
0, and a subsequent manual toggle starts playback. -/
theorem c8_autoplay_denied (m : MediaEl) (hp : m.paused = true) :
    playPromise false m = Except.error () ∧
    runCmd false m MediaCmd.playAttempt = m ∧
    runReelEffect true false m = { paused := true, time := 0 } ∧
    (togglePlayEl (runReelEffect true false m)).1.paused = false := by
  have h1 : playPromise false m = Except.error () := by simp [playPromise]
  have h2 : runCmd false m MediaCmd.playAttempt = m := by simp [runCmd, h1]
  have h3 : runReelEffect true false m = { paused := true, time := 0 } := by
    simp [runReelEffect, reelEffectCmds, runCmds, runCmd, playPromise, hp]
  refine ⟨h1, h2, h3, ?_⟩
  rw [h3]
  simp [togglePlayEl]

/-- C8 (witness): denying autoplay on a fresh element raises no error into
the component, leaves it paused at time 0, and a manual toggle plays it. -/
theorem c8_autoplay_denied_witness :
    playPromise false pristine = Except.error () ∧
    runCmd false pristine MediaCmd.playAttempt = pristine ∧
    runReelEffect true false pristine = { paused := true, time := 0 } ∧
    (togglePlayEl (runReelEffect true false pristine)).1.paused = false :=
  c8_autoplay_denied pristine rfl

/-- The characters JS `String.prototype.trim` strips (the ones that occur in
text input). -/
def isJsSpace (c : Char) : Bool :=
  c == ' ' || c == '\t' || c == '\n' || c == '\r'

/-- JS `String.prototype.trim` over a list of characters. -/
def jsTrim (s : List Char) : List Char :=
  ((s.dropWhile isJsSpace).reverse.dropWhile isJsSpace).reverse

/-- The role of a chat message. -/
inductive Role where
  | user : Role
  | model : Role
deriving DecidableEq

/-- One entry of `ChatPanel`'s `messages` state. -/
structure ChatMsg where
  role : Role
  text : List Char
deriving DecidableEq

/-- `ChatPanel`'s component state. `chatInstance` holds the identity of the
chat object created by the `initChat` effect (`none` before it has run). -/
structure ChatState where
  messages : List ChatMsg
  inputValue : List Char
  isTyping : Bool
  chatInstance : Option ℕ
deriving DecidableEq

/-- The synchronous part of `ChatPanel.handleSend`: bail out when the trimmed
input is empty or no chat instance exists; otherwise clear the input, append
the trimmed user message, set the typing flag, and issue the backend call
(returned as `some sentText`). -/
def handleSendCore (s : ChatState) : ChatState × Option (List Char) :=
  if jsTrim s.inputValue = [] ∨ s.chatInstance = none then (s, none)
  else
    ({ s with
        inputValue := [],
        messages := s.messages ++ [⟨Role.user, jsTrim s.inputValue⟩],
        isTyping := true },
     some (jsTrim s.inputValue))

/-- The fixed in-character line appended when the backend call fails. -/
def weakSignalFallback : List Char :=
  "The signal is weak... can you say that again?".data

/-- The placeholder used when the backend reply text is empty/undefined. -/
def lostFallback : List Char :=
  "I\x27m lost in the moment...".data

/-- `result.text || fallback` applied to the outcome of the backend call:
`none` is a failed call, `some t` a reply with text `t`. -/
def responseTextOf : Option (List Char) → List Char
  | none => weakSignalFallback
  | some t => if t = [] then lostFallback else t

/-- A backend call in flight: the mounted component instance that issued it
and the chat-session identity (`chatInstance`) it was sent on, plus the
user's message. -/
structure CallRec where
  instId : ℕ
  sid : ℕ
  msg : List Char
deriving DecidableEq

/-- The chat overlay's world: which `ChatPanel` component instance is mounted
(if any), fresh-id counters, the mounted panel's state, and the list of
backend calls issued so far (in order). -/
structure World where
  mounted : Option ℕ
  nextInst : ℕ
  nextSid : ℕ
  panel : ChatState
  calls : List CallRec
deriving DecidableEq

/-- A `ChatPanel` before its effects run. -/
def freshChatState : ChatState :=
  { messages := [], inputValue := [], isTyping := false, chatInstance := some 0 }

/-- `ChatPanel`'s `initChat` effect: create a fresh chat object (no network
traffic) and replace the history with the single model-authored hook line. -/
def initChatEffect (hook : List Char) (sid : ℕ) (s : ChatState) : ChatState :=
  { s with chatInstance := some sid, messages := [⟨Role.model, hook⟩] }

/-- The events driving the chat overlay. `mount` renders the panel for a
trigger (hook text), `replaceProps` re-runs `initChat` on the mounted panel
when the trigger/character/episode props change, `unmount` closes it,
`resolve i outcome` delivers the `i`-th backend call's outcome. -/
inductive ChatEvent where
  | mountPanel : List Char → ChatEvent
  | replaceProps : List Char → ChatEvent
  | unmountPanel : ChatEvent
  | setInput : List Char → ChatEvent
  | send : ChatEvent
  | resolve : ℕ → Option (List Char) → ChatEvent

/-- One step of the chat overlay. A resolving backend call applies its state
updates only when the component instance that issued it is still the mounted
one (React discards state updates of unmounted instances); nothing compares
the call's chat-session identity with the current one. -/
def chatStep : ChatEvent → World → World
  | ChatEvent.mountPanel hook, w =>
      match w.mounted with
      | some _ => w
      | none =>
          { mounted := some w.nextInst,
            nextInst := w.nextInst + 1,
            nextSid := w.nextSid + 1,
            panel := initChatEffect hook w.nextSid freshChatState,
            calls := w.calls }
  | ChatEvent.replaceProps hook, w =>
      match w.mounted with
      | none => w
      | some _ =>
          { w with
              nextSid := w.nextSid + 1,
              panel := initChatEffect hook w.nextSid w.panel }
  | ChatEvent.unmountPanel, w => { w with mounted := none }
  | ChatEvent.setInput txt, w =>
      match w.mounted with
      | none => w
      | some _ => { w with panel := { w.panel with inputValue := txt } }
  | ChatEvent.send, w =>
      match w.mounted with
      | none => w
      | some inst =>
          match w.panel.chatInstance, handleSendCore w.panel with
          | some sid, (s2, some t) =>
              { w with panel := s2, calls := w.calls ++ [⟨inst, sid, t⟩] }
          | _, (s2, _) => { w with panel := s2 }
  | ChatEvent.resolve i outcome, w =>
      match w.calls[i]? with
      | none => w
      | some c =>
          match w.mounted with
          | none => w
          | some inst =>
              if inst = c.instId then
                { w with panel :=
                    { w.panel with
                        messages := w.panel.messages ++ [⟨Role.model, responseTextOf outcome⟩],
                        isTyping := false } }
              else w

/-- The world before the overlay has ever been opened. -/
def initialWorld : World :=
  { mounted := none, nextInst := 0, nextSid := 0,
    panel := freshChatState, calls := [] }

theorem head_dropWhile_not_sat (p : Char → Bool) (l : List Char) (c : Char)
    (h : (l.dropWhile p).head? = some c) : p c = false := by
  induction l with
  | nil => simp at h
  | cons a t ih =>
      rw [List.dropWhile_cons] at h
      by_cases hpa : p a = true
      · rw [if_pos hpa] at h
        exact ih h
      · rw [if_neg hpa] at h
        simp at h
        rw [← h]
        simpa using hpa

theorem jsTrim_last_not_space (s : List Char) (c : Char)
    (h : (jsTrim s).getLast? = some c) : isJsSpace c = false := by
  rw [jsTrim, List.getLast?_reverse] at h
  exact head_dropWhile_not_sat isJsSpace _ c h

theorem jsTrim_head_not_space (s : List Char) (c : Char)
    (h : (jsTrim s).head? = some c) : isJsSpace c = false := by
  rw [jsTrim, List.head?_reverse] at h
  have hne : (s.dropWhile isJsSpace).reverse.dropWhile isJsSpace ≠ [] := by
    intro hnil
    rw [hnil] at h
    simp at h
  have hlast :
      ((s.dropWhile isJsSpace).reverse.dropWhile isJsSpace).getLast?
        = (s.dropWhile isJsSpace).reverse.getLast? := by
    conv_rhs => rw [← List.takeWhile_append_dropWhile isJsSpace (s.dropWhile isJsSpace).reverse]
    exact (List.getLast?_append_of_ne_nil _ hne).symm
  rw [hlast, List.getLast?_reverse] at h
  exact head_dropWhile_not_sat isJsSpace s c h

/-- C10: every user-role message `handleSend` appends is exactly the trimmed
input: the new history is the old one plus `{role: user, text: trim(input)}`,
the stored text is non-empty, and it has no leading or trailing whitespace
(the raw input is never stored). -/
theorem c10_user_message_trimmed (s s2 : ChatState) (t : List Char)
    (h : handleSendCore s = (s2, some t)) :
    s2.messages = s.messages ++ [⟨Role.user, t⟩] ∧
    t = jsTrim s.inputValue ∧
    t ≠ [] ∧
    (∀ c : Char, t.head? = some c → isJsSpace c = false) ∧
    (∀ c : Char, t.getLast? = some c → isJsSpace c = false) := by
  by_cases hg : jsTrim s.inputValue = [] ∨ s.chatInstance = none
  · rw [handleSendCore, if_pos hg] at h
    exact absurd (congrArg Prod.snd h) (by simp)
  · rw [handleSendCore, if_neg hg] at h
    have hA : ¬ jsTrim s.inputValue = [] := (not_or.mp hg).1
    have h1 := congrArg Prod.fst h
    have h2 := congrArg Prod.snd h
    simp only at h1 h2
    have ht : t = jsTrim s.inputValue := by
      cases h2
      rfl
    subst ht
    refine ⟨?_, rfl, hA, ?_, ?_⟩
    · rw [← h1]
    · intro c hc
      exact jsTrim_head_not_space s.inputValue c hc
    · intro c hc
      exact jsTrim_last_not_space s.inputValue c hc

/-- C10 (witness): sending from input `" hi "` appends exactly
`{role: user, text: "hi"}`, a non-empty trimmed text. -/
theorem c10_user_message_trimmed_witness :
    (⟨[⟨Role.user, ['h', 'i']⟩], [], true, some 0⟩ : ChatState).messages
        = (⟨[], [' ', 'h', 'i', ' '], false, some 0⟩ : ChatState).messages
            ++ [⟨Role.user, ['h', 'i']⟩] ∧
    (['h', 'i'] : List Char)
        = jsTrim (⟨[], [' ', 'h', 'i', ' '], false, some 0⟩ : ChatState).inputValue ∧
    (['h', 'i'] : List Char) ≠ [] ∧
    (∀ c : Char, (['h', 'i'] : List Char).head? = some c → isJsSpace c = false) ∧
    (∀ c : Char, (['h', 'i'] : List Char).getLast? = some c → isJsSpace c = false) :=
  c10_user_message_trimmed
    ⟨[], [' ', 'h', 'i', ' '], false, some 0⟩
    ⟨[⟨Role.user, ['h', 'i']⟩], [], true, some 0⟩
    ['h', 'i'] (by decide)

/-- C2 (amended): submit is a no-op — state and pending unchanged, no backend
call issued — when the input is empty after trimming, and likewise when the
chat instance has not been created; the pending (`isTyping`) state is not
consulted, so being `AwaitingReply` does not by itself block a submit. -/
theorem c2_amended (s : ChatState) :
    (jsTrim s.inputValue = [] → handleSendCore s = (s, none)) ∧
    (s.chatInstance = none → handleSendCore s = (s, none)) := by
  constructor
  · intro h
    rw [handleSendCore, if_pos (Or.inl h)]
  · intro h
    rw [handleSendCore, if_pos (Or.inr h)]

/-- C2 (witness): submitting the whitespace-only input `" "` leaves the
session untouched and issues no backend call. -/
theorem c2_amended_witness :
    handleSendCore ⟨[], [' '], false, some 0⟩ = (⟨[], [' '], false, some 0⟩, none) :=
  (c2_amended ⟨[], [' '], false, some 0⟩).1 (by decide)

/-- C2 (counterexample): in the `AwaitingReply` state (`isTyping = true`,
a call already in flight), submitting the non-empty input `"hi"` is not a
no-op: the user message is appended and a second backend call is issued. -/
theorem c2_counterexample :
    (⟨[], ['h', 'i'], true, some 0⟩ : ChatState).isTyping = true ∧
    (handleSendCore ⟨[], ['h', 'i'], true, some 0⟩).2 = some ['h', 'i'] ∧
    (handleSendCore ⟨[], ['h', 'i'], true, some 0⟩).1.messages
      = [⟨Role.user, ['h', 'i']⟩] := by
  decide

/-- C5: opening the chat overlay runs `initChat`, which seeds the history
with exactly the single message `{role: model, text: hookText}` and issues
no backend call (the set of issued calls is unchanged). -/
theorem c5_open_seeds_hook (w : World) (hook : List Char) (hm : w.mounted = none) :
    (chatStep (ChatEvent.mountPanel hook) w).panel.messages = [⟨Role.model, hook⟩] ∧
    (chatStep (ChatEvent.mountPanel hook) w).calls = w.calls := by
  simp [chatStep, hm, initChatEffect, freshChatState]

/-- C5 (witness): opening the overlay with hook `"X"` from the initial world
yields history `[{model, "X"}]` with no backend call issued. -/
theorem c5_open_seeds_hook_witness :
    (chatStep (ChatEvent.mountPanel ['X']) initialWorld).panel.messages
        = [⟨Role.model, ['X']⟩] ∧
    (chatStep (ChatEvent.mountPanel ['X']) initialWorld).calls = [] :=
  c5_open_seeds_hook initialWorld ['X'] rfl

/-- C6: submitting non-empty text and then having that backend call fail
appends the user message followed by the fixed in-character "weak signal"
fallback line (no raw error text), and `isTyping` (pending) returns to false;
a successful resolution also returns `isTyping` to false. -/
theorem c6_failure_fallback (w : World) (inst sid : ℕ)
    (hm : w.mounted = some inst)
    (hs : w.panel.chatInstance = some sid)
    (ht : jsTrim w.panel.inputValue ≠ []) :
    (chatStep (ChatEvent.resolve w.calls.length none)
        (chatStep ChatEvent.send w)).panel.messages
      = w.panel.messages
          ++ [⟨Role.user, jsTrim w.panel.inputValue⟩, ⟨Role.model, weakSignalFallback⟩] ∧
    (chatStep (ChatEvent.resolve w.calls.length none)
        (chatStep ChatEvent.send w)).panel.isTyping = false ∧
    (∀ reply : List Char,
        (chatStep (ChatEvent.resolve w.calls.length (some reply))
            (chatStep ChatEvent.send w)).panel.isTyping = false) := by
  have hguard : ¬ (jsTrim w.panel.inputValue = [] ∨ w.panel.chatInstance = none) := by
    simp [ht, hs]
  have hsend : handleSendCore w.panel =
      ({ w.panel with
          inputValue := [],
          messages := w.panel.messages ++ [⟨Role.user, jsTrim w.panel.inputValue⟩],
          isTyping := true },
       some (jsTrim w.panel.inputValue)) := by
    rw [handleSendCore, if_neg hguard]
  refine ⟨?_, ?_, ?_⟩
  · simp [chatStep, hm, hs, hsend, List.getElem?_concat_length, responseTextOf]
  · simp [chatStep, hm, hs, hsend, List.getElem?_concat_length]
  · intro reply
    simp [chatStep, hm, hs, hsend, List.getElem?_concat_length]

/-- C6 (witness): from an open session with input `"hi"`, a send followed by
a failing backend resolution yields history
`[{model,"X"}, {user,"hi"}, {model, weak-signal fallback}]` with pending
back to false (and a successful resolution also clears pending). -/
theorem c6_failure_fallback_witness :
    (chatStep (ChatEvent.resolve 0 none)
        (chatStep ChatEvent.send
          ⟨some 0, 1, 1, ⟨[⟨Role.model, ['X']⟩], ['h', 'i'], false, some 0⟩, []⟩)).panel.messages
      = [⟨Role.model, ['X']⟩, ⟨Role.user, ['h', 'i']⟩, ⟨Role.model, weakSignalFallback⟩] ∧
    (chatStep (ChatEvent.resolve 0 none)
        (chatStep ChatEvent.send
          ⟨some 0, 1, 1, ⟨[⟨Role.model, ['X']⟩], ['h', 'i'], false, some 0⟩, []⟩)).panel.isTyping
      = false :=
  ⟨(c6_failure_fallback
      ⟨some 0, 1, 1, ⟨[⟨Role.model, ['X']⟩], ['h', 'i'], false, some 0⟩, []⟩
      0 0 rfl rfl (by decide)).1,
   (c6_failure_fallback
      ⟨some 0, 1, 1, ⟨[⟨Role.model, ['X']⟩], ['h', 'i'], false, some 0⟩, []⟩
      0 0 rfl rfl (by decide)).2.1⟩

/-- C3 (amended): a backend reply resolving after the overlay is gone is
discarded — the state update is gated on the issuing component instance
still being the mounted one (so a reply for a closed, or closed-and-reopened,
overlay is a no-op); the gate is the component instance, not the chat-session
identity. -/
theorem c3_amended (w : World) (i : ℕ) (o : Option (List Char)) :
    (w.mounted = none → chatStep (ChatEvent.resolve i o) w = w) ∧
    (∀ (c : CallRec) (inst : ℕ),
        w.mounted = some inst → w.calls[i]? = some c → inst ≠ c.instId →
        chatStep (ChatEvent.resolve i o) w = w) := by
  constructor
  · intro hm
    cases hc : w.calls[i]? with
    | none => simp [chatStep, hc]
    | some c => simp [chatStep, hc, hm]
  · intro c inst hm hc hne
    simp [chatStep, hc, hm, hne]

/-- C3 (amended, witness): resolving a call when no overlay is mounted leaves
the world unchanged. -/
theorem c3_amended_witness :
    chatStep (ChatEvent.resolve 0 none) initialWorld = initialWorld :=
  (c3_amended initialWorld 0 none).1 rfl

/-- C3 (counterexample): open a session with hook `"A"`, send `"hi"`
(backend call in flight on chat session 0), replace the session in place
with hook `"B"` (chat session 1), then let the stale call resolve with
reply `"Z"`: the reply for the discarded session is appended to the
now-current session's history — no session-identity check is performed. -/
theorem c3_counterexample :
    (chatStep (ChatEvent.resolve 0 (some ['Z']))
        (chatStep (ChatEvent.replaceProps ['B'])
          (chatStep ChatEvent.send
            (chatStep (ChatEvent.setInput ['h', 'i'])
              (chatStep (ChatEvent.mountPanel ['A']) initialWorld))))).calls
      = [⟨0, 0, ['h', 'i']⟩] ∧
    (chatStep (ChatEvent.resolve 0 (some ['Z']))
        (chatStep (ChatEvent.replaceProps ['B'])
          (chatStep ChatEvent.send
            (chatStep (ChatEvent.setInput ['h', 'i'])
              (chatStep (ChatEvent.mountPanel ['A']) initialWorld))))).panel.chatInstance
      = some 1 ∧
    (chatStep (ChatEvent.resolve 0 (some ['Z']))
        (chatStep (ChatEvent.replaceProps ['B'])
          (chatStep ChatEvent.send
            (chatStep (ChatEvent.setInput ['h', 'i'])
              (chatStep (ChatEvent.mountPanel ['A']) initialWorld))))).panel.messages
      = [⟨Role.model, ['B']⟩, ⟨Role.model, ['Z']⟩] := by
  decide
